import Mathlib

/-!
Verification of the invoice/transaction matching engine.

The development shallowly embeds the matching engine:
`src/utils/string-distance.ts`, `src/utils/matching-engine.ts`, and the
result-analytics helpers of `src/utils/sample-data.ts`, together with the
type definitions and default configuration of `src/types/matching.ts`.

Modelling conventions:
- JavaScript numbers are modelled as exact rationals (`ℚ`).  The engine
  performs only field arithmetic, comparisons, `Math.max`/`Math.min`
  clamps and one floor (which is exact at day resolution), so `ℚ` is a
  faithful model away from overflow/rounding extremes.
- The single place where the code can produce IEEE `NaN` is the weight
  normalisation in `calculateConfidenceScore` (division by a zero total
  weight).  There the result type is `Option ℚ`, with `none` modelling a
  `NaN` confidence; every JS comparison `NaN >= x` is false, which is
  modelled by the `none` case producing no candidate.
- Strings are handled as `List Char`; `String.data` converts at the
  boundary.  JavaScript `toLowerCase`/`trim` become character-wise
  `Char.toLower` and whitespace trimming.
- `Date` values are modelled at day resolution (`JDate`, a civil
  year/month/day triple); `normalizeDate` truncates a JS date to local
  midnight, so day-resolution inputs lose nothing, and the millisecond
  arithmetic of `dateDifferenceDays` reduces to a difference of civil
  day numbers.
- `Array.prototype.sort` with comparator `(a, b) => b.confidenceScore -
  a.confidenceScore` is a stable sort by descending confidence; it is
  modelled by `List.insertionSort` with the corresponding relation
  (insertion sort is stable and sorts by the same relation).
-/

/-! ## String utilities (src/utils/string-distance.ts) -/

/-- Character-wise lower-casing, modelling `String.prototype.toLowerCase`. -/
def lowerChars (cs : List Char) : List Char := cs.map Char.toLower

/-- Whitespace trimming at both ends, modelling `String.prototype.trim`. -/
def trimChars (cs : List Char) : List Char :=
  ((cs.dropWhile Char.isWhitespace).reverse.dropWhile Char.isWhitespace).reverse

/-- Inner loop of the Levenshtein dynamic program: given the character `c2`
of the current row, the remaining characters of `s1`, the remainder of the
previous row, the cell to the left and the diagonal cell, produce the rest
of the current row (`matrix[j][i] = min(left+1, up+1, diag+cost)`). -/
def levRowGo (c2 : Char) : List Char → List ℕ → ℕ → ℕ → List ℕ
  | c1 :: t1, up :: prest, left, diag =>
      let cost := if c1 = c2 then 0 else 1
      let cur := min (left + 1) (min (up + 1) (diag + cost))
      cur :: levRowGo c2 t1 prest cur up
  | _, _, _, _ => []

/-- Row `j` of the Levenshtein matrix from row `j - 1`
(`matrix[j][0] = j`, then `levRowGo`). -/
def levNextRow (s1 : List Char) (c2 : Char) (prevRow : List ℕ) (j : ℕ) : List ℕ :=
  match prevRow with
  | [] => []
  | p0 :: ptail => j :: levRowGo c2 s1 ptail j p0

/-- Fold the row computation over the characters of `s2`, starting from the
initial row `[0, 1, …, |s1|]`. -/
def levRows (s1 : List Char) : List Char → List ℕ → ℕ → List ℕ
  | [], prevRow, _ => prevRow
  | c2 :: rest, prevRow, j => levRows s1 rest (levNextRow s1 c2 prevRow j) (j + 1)

/-- Levenshtein distance of `src/utils/string-distance.ts`: both inputs are
lower-cased and trimmed, empty cases are short-circuited, and otherwise the
full dynamic-programming matrix is computed row by row; the answer is
`matrix[|s2|][|s1|]`, the last entry of the final row. -/
def levenshteinDistance (str1 str2 : List Char) : ℕ :=
  let s1 := trimChars (lowerChars str1)
  let s2 := trimChars (lowerChars str2)
  if s1.length = 0 then s2.length
  else if s2.length = 0 then s1.length
  else
    let row0 := List.range (s1.length + 1)
    (levRows s1 s2 row0 1).getLastD 0

/-- Similarity score `1 - distance / maxLength`; note the source computes
`maxLength` from the original (untrimmed) strings.  Both empty gives 1. -/
def levenshteinSimilarity (str1 str2 : List Char) : ℚ :=
  let distance := levenshteinDistance str1 str2
  let maxLength := max str1.length str2.length
  if maxLength = 0 then 1
  else 1 - (distance : ℚ) / (maxLength : ℚ)

/-- The scanning loop of `fuzzyScore`: walks the target, consuming a pattern
character on every equal pair; returns the final
`(patternIndex, targetIndex, matchedCharacters)`. -/
def fuzzyGo : List Char → List Char → ℕ → ℕ → ℕ → ℕ × ℕ × ℕ
  | [], _, pi, ti, m => (pi, ti, m)
  | _ :: _, [], pi, ti, m => (pi, ti, m)
  | pc :: ps, tc :: ts, pi, ti, m =>
      if pc = tc then fuzzyGo ps ts (pi + 1) (ti + 1) (m + 1)
      else fuzzyGo (pc :: ps) ts pi (ti + 1) m

/-- Fuzzy subsequence score of `src/utils/string-distance.ts`: 1 for an
empty pattern, 0 for an empty target, otherwise 0 unless every pattern
character is found in order, in which case the blend of the matched
fraction and the position bonus is clamped into `[0.5, 1]`. -/
def fuzzyScore (pattern target : List Char) : ℚ :=
  let p := trimChars (lowerChars pattern)
  let t := trimChars (lowerChars target)
  if p.length = 0 then 1
  else if t.length = 0 then 0
  else
    let r := fuzzyGo p t 0 0 0
    if r.1 = p.length then
      let consecutiveBonus : ℚ := (r.2.2 : ℚ) / (p.length : ℚ)
      let positionBonus : ℚ := 1 - (r.2.1 : ℚ) / (t.length : ℚ) / 2
      max 0.5 (min 1 ((consecutiveBonus + positionBonus) / 2))
    else 0

/-! ### Token extraction (`extractReferences`)

The source uses two global regular expressions and a split.  The regex
scans are rendered as explicit left-to-right scanners with the same
semantics: `\b` (word boundary) holds where the word-character status
changes, `\d{3,}` matches maximal digit runs of length at least three, and
`[A-Z]{1,4}-?\d{1,10}` (case-insensitive) greedily matches a letter run of
length 1–4, an optional hyphen, and a digit run of length 1–10, resuming
after each match.  Since a failed attempt inside a word never finds a later
boundary, scanning maximal runs is equivalent to the regex engine's
character-by-character scan. -/

/-- JavaScript `\w`: ASCII letters, digits, underscore. -/
def isWordChar (c : Char) : Bool := c.isAlpha || c.isDigit || c == '_'

/-- Word-boundary test against a neighbouring character (string ends count
as non-word). -/
def isNonWord : Option Char → Bool
  | none => true
  | some c => !(isWordChar c)

/-- Scanner for `/\b\d{3,}\b/g`: collects maximal digit runs of length ≥ 3
whose neighbours on both sides are non-word (or absent).  `fuel` bounds the
recursion; it is called with the input length, which suffices because every
step consumes at least one character. -/
def digitRefsGo : ℕ → Option Char → List Char → List (List Char)
  | 0, _, _ => []
  | _ + 1, _, [] => []
  | fuel + 1, prev, c :: rest =>
    if c.isDigit then
      let run := c :: rest.takeWhile Char.isDigit
      let rest2 := rest.dropWhile Char.isDigit
      let keep := decide (3 ≤ run.length) && isNonWord prev && isNonWord rest2.head?
      let tail := digitRefsGo fuel (some (run.getLastD c)) rest2
      if keep then run :: tail else tail
    else digitRefsGo fuel (some c) rest

/-- All matches of `/\b\d{3,}\b/g` in `text`. -/
def digitRefs (text : List Char) : List (List Char) :=
  digitRefsGo text.length none text

/-- One anchored attempt of `/[A-Z]{1,4}-?\d{1,10}\b/i` at the head of the
input (the leading `\b` and leading-letter test are done by the caller).
Greedy semantics: the letter run must have length 1–4 (a longer run can
never backtrack into a digit), a hyphen is consumed when present, and the
digit run must have length 1–10 followed by a word boundary.  Returns the
matched characters. -/
def tryAlnumAt (cs : List Char) : Option (List Char) :=
  let letters := cs.takeWhile Char.isAlpha
  if letters.length = 0 || 4 < letters.length then none
  else
    match cs.dropWhile Char.isAlpha with
    | '-' :: rest1 =>
        let digits := rest1.takeWhile Char.isDigit
        let rest2 := rest1.dropWhile Char.isDigit
        if decide (1 ≤ digits.length) && decide (digits.length ≤ 10)
            && isNonWord rest2.head? then
          some (letters ++ '-' :: digits)
        else none
    | afterLetters =>
        let digits := afterLetters.takeWhile Char.isDigit
        let rest2 := afterLetters.dropWhile Char.isDigit
        if decide (1 ≤ digits.length) && decide (digits.length ≤ 10)
            && isNonWord rest2.head? then
          some (letters ++ digits)
        else none

/-- Scanner for `/\b[A-Z]{1,4}-?\d{1,10}\b/gi`: attempts an anchored match
at every word boundary that starts with a letter, resuming after the end of
each match (`lastIndex` semantics of a global regex); matches are
upper-cased as in the source. -/
def alnumRefsGo : ℕ → Option Char → List Char → List (List Char)
  | 0, _, _ => []
  | _ + 1, _, [] => []
  | fuel + 1, prev, c :: rest =>
    if isNonWord prev && c.isAlpha then
      match tryAlnumAt (c :: rest) with
      | some m =>
          (m.map Char.toUpper) ::
            alnumRefsGo fuel (some (m.getLastD c)) ((c :: rest).drop m.length)
      | none => alnumRefsGo fuel (some c) rest
    else alnumRefsGo fuel (some c) rest

/-- All matches of `/\b[A-Z]{1,4}-?\d{1,10}\b/gi` in `text`. -/
def alnumRefs (text : List Char) : List (List Char) :=
  alnumRefsGo text.length none text

/-- Is the character one of the split separators `[\s\-_(),]`? -/
def isSeparator (c : Char) : Bool :=
  c.isWhitespace || c == '-' || c == '_' || c == '(' || c == ')' || c == ','

/-- Splitting on separator characters, keeping empty pieces, modelling
`String.prototype.split` with a single-character class. -/
def splitSeps : List Char → List (List Char)
  | [] => [[]]
  | c :: rest =>
    let r := splitSeps rest
    if isSeparator c then [] :: r
    else
      match r with
      | [] => [[c]]
      | w :: ws => (c :: w) :: ws

/-- The word part of `extractReferences`: lower-case, split on
`[\s\-_(),]`, keep pieces longer than 2 characters. -/
def wordRefs (text : List Char) : List (List Char) :=
  (splitSeps (lowerChars text)).filter (fun w => decide (2 < w.length))

/-- First-occurrence deduplication, modelling `[...new Set(refs)]`. -/
def dedupFirst : List (List Char) → List (List Char) → List (List Char)
  | _, [] => []
  | seen, x :: xs =>
    if x ∈ seen then dedupFirst seen xs else x :: dedupFirst (x :: seen) xs

/-- Reference extraction of `src/utils/string-distance.ts`: empty text (the
only falsy string) yields no references; otherwise digit-run matches, then
alphanumeric-code matches, then long words, deduplicated preserving first
occurrences. -/
def extractReferences (text : List Char) : List (List Char) :=
  if text.length = 0 then []
  else dedupFirst [] (digitRefs text ++ alnumRefs text ++ wordRefs text)

/-- Inner loop of `compareReferenceSets`: the best match of `ref1` against
a list of candidate references — exact equality short-circuits to 1,
otherwise the running maximum of Levenshtein similarity and fuzzy score. -/
def bestMatchAux (ref1 : List Char) : List (List Char) → ℚ → ℚ
  | [], best => best
  | ref2 :: rest, best =>
    if ref1 = ref2 then 1
    else bestMatchAux ref1 rest
      (max (max best (levenshteinSimilarity ref1 ref2)) (fuzzyScore ref1 ref2))

/-- Token-set comparison of `src/utils/string-distance.ts`: 1 when both
sides are empty, 0 when exactly one is, otherwise the average over `refs1`
of each reference's best match in `refs2`. -/
def compareReferenceSets (refs1 refs2 : List (List Char)) : ℚ :=
  if refs1.length = 0 ∧ refs2.length = 0 then 1
  else if refs1.length = 0 ∨ refs2.length = 0 then 0
  else
    let totalScore := (refs1.map (fun r1 => bestMatchAux r1 refs2 0)).sum
    let comparisons := refs1.length
    if 0 < comparisons then totalScore / (comparisons : ℚ) else 0

example : levenshteinDistance "kitten".data "sitting".data = 3 := by with_unfolding_all decide
example : levenshteinSimilarity "abc".data "abc".data = 1 := by with_unfolding_all decide
example : extractReferences "Test Company REF-001 payment".data =
    ["001".data, "REF-001".data, "test".data, "company".data, "ref".data,
     "payment".data] := by with_unfolding_all decide

/-! ## Dates (src/utils/matching-engine.ts, `normalizeDate` / `dateDifferenceDays`) -/

/-- A calendar date at day resolution.  The engine's `normalizeDate`
truncates every JS `Date` to local midnight before comparison, so only the
civil year/month/day triple is observable. -/
structure JDate where
  year : ℤ
  month : ℤ
  day : ℤ
deriving DecidableEq

/-- Days since 1970-01-01 of a civil date (Howard Hinnant's
`days_from_civil` algorithm, with floor division).  This is
`Date.getTime() / 86400000` for a date at UTC midnight. -/
def daysFromCivil (dt : JDate) : ℤ :=
  let y := if dt.month ≤ 2 then dt.year - 1 else dt.year
  let era := Int.fdiv y 400
  let yoe := y - era * 400
  let mp := if 2 < dt.month then dt.month - 3 else dt.month + 9
  let doy := Int.fdiv (153 * mp + 2) 5 + dt.day - 1
  let doe := yoe * 365 + Int.fdiv yoe 4 - Int.fdiv yoe 100 + doy
  era * 146097 + doe - 719468

/-- Truncation to local midnight.  Dates are already at day resolution in
this model, so normalization is the identity. -/
def normalizeDate (d : JDate) : JDate := d

/-- Whole-day difference of two dates:
`Math.floor(|t1 - t2| / 86400000)` on midnight-normalized dates is exactly
the absolute difference of their civil day numbers. -/
def dateDifferenceDays (date1 date2 : JDate) : ℕ :=
  (daysFromCivil (normalizeDate date1) - daysFromCivil (normalizeDate date2)).natAbs

/-! ## Data model (src/types/matching.ts) -/

/-- Matching configuration (`MatchingConfig` of `src/types/matching.ts`). -/
structure MatchingConfig where
  exactAmountMatch : Bool
  amountTolerance : ℚ
  amountWeight : ℚ
  dateWindowDays : ℚ
  dateWeight : ℚ
  referenceSimilarityThreshold : ℚ
  referenceWeight : ℚ
  minConfidenceScore : ℚ
deriving DecidableEq

/-- The default configuration `DEFAULT_MATCHING_CONFIG`. -/
def DEFAULT_MATCHING_CONFIG : MatchingConfig where
  exactAmountMatch := false
  amountTolerance := 0.02
  amountWeight := 0.4
  dateWindowDays := 30
  dateWeight := 0.3
  referenceSimilarityThreshold := 0.5
  referenceWeight := 0.3
  minConfidenceScore := 0.5

/-- An invoice (`Invoice` of `src/types/matching.ts`).  `dueDate` and
`status` are carried for completeness; the engine never reads them. -/
structure Invoice where
  id : String
  amount : ℚ
  date : JDate
  dueDate : Option JDate := none
  customerId : String
  customerName : String
  referenceId : Option String := none
  description : Option String := none
  status : Option String := none
deriving DecidableEq

/-- A transaction (`Transaction` of `src/types/matching.ts`). -/
structure Transaction where
  id : String
  amount : ℚ
  date : JDate
  description : String
  reference : Option String := none
  source : String
  status : Option String := none
deriving DecidableEq

/-- The per-candidate score breakdown. -/
structure MatchBreakdown where
  amountDifference : ℚ
  dateDifference : ℕ
  amountMatch : Bool
  dateInWindow : Bool
  referenceSimilarity : ℚ
deriving DecidableEq

/-- A proposed invoice/transaction match (`MatchCandidate`). -/
structure MatchCandidate where
  invoiceId : String
  transactionId : String
  confidenceScore : ℚ
  amountScore : ℚ
  dateScore : ℚ
  referenceScore : ℚ
  breakdown : MatchBreakdown
deriving DecidableEq

/-! ## Scoring functions (src/utils/matching-engine.ts) -/

/-- Result of `calculateAmountScore`. -/
structure AmountScoreResult where
  score : ℚ
  isMatch : Bool
  difference : ℚ
deriving DecidableEq

/-- Amount score of `src/utils/matching-engine.ts`: exact equality scores
1; with `exactAmountMatch` set any inequality scores 0; within the
percentage tolerance the score decays linearly from 1 (floor-clamped at
0), and outside it the halved linear decay against a 50% difference is
used (floor-clamped at 0 twice, exactly as in the source). -/
def calculateAmountScore (invoiceAmount transactionAmount : ℚ)
    (config : MatchingConfig) : AmountScoreResult :=
  let difference := |invoiceAmount - transactionAmount|
  let percentageDifference := difference / invoiceAmount * 100
  if invoiceAmount = transactionAmount then ⟨1, true, 0⟩
  else if config.exactAmountMatch then ⟨0, false, difference⟩
  else
    let tolerance := config.amountTolerance * invoiceAmount / 100
    if difference ≤ tolerance then
      ⟨max 0 (1 - percentageDifference / (config.amountTolerance * 100)), true, difference⟩
    else
      let score := max 0 (1 - percentageDifference / 50)
      ⟨max 0 (score * 0.5), false, difference⟩

/-- Result of `calculateDateScore`. -/
structure DateScoreResult where
  score : ℚ
  inWindow : Bool
  difference : ℕ
deriving DecidableEq

/-- Date score of `src/utils/matching-engine.ts`: identical days score 1;
days outside the window score the fixed 0.1 floor; inside the window the
score decays linearly (floor-clamped at 0). -/
def calculateDateScore (invoiceDate transactionDate : JDate)
    (config : MatchingConfig) : DateScoreResult :=
  let difference := dateDifferenceDays invoiceDate transactionDate
  let inWindow : Bool := decide ((difference : ℚ) ≤ config.dateWindowDays)
  if difference = 0 then ⟨1, true, 0⟩
  else if inWindow = false then ⟨0.1, false, difference⟩
  else ⟨max 0 (1 - (difference : ℚ) / config.dateWindowDays), true, difference⟩

/-- Reference score of `src/utils/matching-engine.ts`: token sets are
extracted from `customerName referenceId description` on the invoice side
and from the description on the transaction side; an empty side yields the
fixed default 0.3; otherwise the maximum of the token-set comparison and
0.8 times the direct customer-name/description similarity.  The `config`
argument is accepted and unused, as in the source. -/
def calculateReferenceScore (invoice : Invoice) (transaction : Transaction)
    (_config : MatchingConfig) : ℚ :=
  let invoiceText := invoice.customerName.data ++
    (' ' :: (invoice.referenceId.getD "").data) ++
    (' ' :: (invoice.description.getD "").data)
  let invoiceRefs := extractReferences invoiceText
  let transactionRefs := extractReferences transaction.description.data
  if invoiceRefs.length = 0 ∨ transactionRefs.length = 0 then 0.3
  else
    let similarity := compareReferenceSets invoiceRefs transactionRefs
    let customerSimilarity :=
      levenshteinSimilarity invoice.customerName.data transaction.description.data
    max similarity (customerSimilarity * 0.8)

/-- Confidence composer of `src/utils/matching-engine.ts`: the three
weights are normalized by their total and the weighted sum is clamped to
`[0, 1]`.  When the total weight is zero the JS code divides 0 by 0 and
the whole computation is `NaN`; `none` models that `NaN` result. -/
def calculateConfidenceScore (amountScore dateScore referenceScore : ℚ)
    (config : MatchingConfig) : Option ℚ :=
  let totalWeight := config.amountWeight + config.dateWeight + config.referenceWeight
  if totalWeight = 0 then none
  else
    let normalizedAmountWeight := config.amountWeight / totalWeight
    let normalizedDateWeight := config.dateWeight / totalWeight
    let normalizedRefWeight := config.referenceWeight / totalWeight
    let confidence := amountScore * normalizedAmountWeight +
      dateScore * normalizedDateWeight + referenceScore * normalizedRefWeight
    some (max 0 (min 1 confidence))

/-! ## Candidate generation (src/utils/matching-engine.ts) -/

/-- Descending order on confidence, the relation sorted by the comparator
`(a, b) => b.confidenceScore - a.confidenceScore`. -/
def confGE (a b : MatchCandidate) : Prop := b.confidenceScore ≤ a.confidenceScore

instance : DecidableRel confGE := fun a b =>
  inferInstanceAs (Decidable (b.confidenceScore ≤ a.confidenceScore))

instance : IsTotal MatchCandidate confGE :=
  ⟨fun a b => (le_total b.confidenceScore a.confidenceScore).elim Or.inl Or.inr⟩

instance : IsTrans MatchCandidate confGE :=
  ⟨fun _ _ _ h1 h2 => le_trans h2 h1⟩

/-- The composed confidence of one invoice/transaction pair (the value the
candidate loop computes before thresholding). -/
def composedConfidence (invoice : Invoice) (transaction : Transaction)
    (config : MatchingConfig) : Option ℚ :=
  calculateConfidenceScore
    (calculateAmountScore invoice.amount transaction.amount config).score
    (calculateDateScore invoice.date transaction.date config).score
    (calculateReferenceScore invoice transaction config) config

/-- The candidate record pushed by `findCandidatesForInvoice` for a pair
whose confidence `conf` met the threshold. -/
def buildCandidate (invoice : Invoice) (transaction : Transaction)
    (config : MatchingConfig) (conf : ℚ) : MatchCandidate :=
  let amountResult := calculateAmountScore invoice.amount transaction.amount config
  let dateResult := calculateDateScore invoice.date transaction.date config
  let referenceScore := calculateReferenceScore invoice transaction config
  { invoiceId := invoice.id
    transactionId := transaction.id
    confidenceScore := conf
    amountScore := amountResult.score
    dateScore := dateResult.score
    referenceScore := referenceScore
    breakdown :=
      { amountDifference := amountResult.difference
        dateDifference := dateResult.difference
        amountMatch := amountResult.isMatch
        dateInWindow := dateResult.inWindow
        referenceSimilarity := referenceScore } }

/-- One iteration of the transaction loop: the candidate is kept only when
its confidence is an actual number at least `minConfidenceScore` (a `NaN`
confidence fails the JS `>=` test and is skipped). -/
def candidateFor (invoice : Invoice) (transaction : Transaction)
    (config : MatchingConfig) : Option MatchCandidate :=
  match composedConfidence invoice transaction config with
  | none => none
  | some conf =>
      if config.minConfidenceScore ≤ conf then
        some (buildCandidate invoice transaction config conf)
      else none

/-- `findCandidatesForInvoice`: all surviving candidates for one invoice,
sorted by descending confidence. -/
def findCandidatesForInvoice (invoice : Invoice) (transactions : List Transaction)
    (config : MatchingConfig) : List MatchCandidate :=
  List.insertionSort confGE
    (transactions.filterMap (fun transaction => candidateFor invoice transaction config))

/-- `findMatches` with an explicit full configuration (the TS entry point
first merges a partial override onto `DEFAULT_MATCHING_CONFIG`; the merged
record is what this function receives): the per-invoice candidate lists
are concatenated and sorted by descending confidence. -/
def findMatches (invoices : List Invoice) (transactions : List Transaction)
    (config : MatchingConfig) : List MatchCandidate :=
  List.insertionSort confGE
    (invoices.flatMap (fun invoice => findCandidatesForInvoice invoice transactions config))

/-! ## Result analytics (src/utils/sample-data.ts helpers) -/

/-- JavaScript truthiness of a number: everything but 0 (and `NaN`). -/
def truthy (q : ℚ) : Bool := decide (q ≠ 0)

/-- `filterByConfidence`: keeps candidates meeting the minimum, and the
maximum when one is supplied — the source guards the maximum test with the
truthiness check `maxConfidence ? … : true`, so a supplied maximum of 0 is
treated as absent. -/
def filterByConfidence (candidates : List MatchCandidate) (minConfidence : ℚ)
    (maxConfidence : Option ℚ) : List MatchCandidate :=
  candidates.filter fun c =>
    let meetsMin := decide (minConfidence ≤ c.confidenceScore)
    let meetsMax :=
      match maxConfidence with
      | some m => if truthy m then decide (c.confidenceScore ≤ m) else true
      | none => true
    meetsMin && meetsMax

/-- Size of the `groupByInvoice` group containing `c`: the group stored
under `c.invoiceId` holds exactly the candidates sharing that invoice id
(the per-group sort does not change its length). -/
def invoiceGroupSize (candidates : List MatchCandidate) (c : MatchCandidate) : ℕ :=
  (candidates.filter (fun d => d.invoiceId == c.invoiceId)).length

/-- Size of the `groupByTransaction` group containing `c`. -/
def transactionGroupSize (candidates : List MatchCandidate) (c : MatchCandidate) : ℕ :=
  (candidates.filter (fun d => d.transactionId == c.transactionId)).length

/-- `findOneToOneMatches`: candidates whose invoice and transaction groups
are both singletons. -/
def findOneToOneMatches (candidates : List MatchCandidate) : List MatchCandidate :=
  candidates.filter fun c =>
    (invoiceGroupSize candidates c == 1) && (transactionGroupSize candidates c == 1)

/-- `findAmbiguousMatches`: candidates whose invoice or transaction group
has more than one member. -/
def findAmbiguousMatches (candidates : List MatchCandidate) : List MatchCandidate :=
  candidates.filter fun c =>
    decide (1 < invoiceGroupSize candidates c) || decide (1 < transactionGroupSize candidates c)

example : dateDifferenceDays ⟨2024, 1, 15⟩ ⟨2024, 3, 15⟩ = 60 := by with_unfolding_all decide
example : daysFromCivil ⟨1970, 1, 1⟩ = 0 := by with_unfolding_all decide

/-! ## Test fixtures

The invoice/transaction pair of `testExactMatch` in the engine's test
suite (spec Scenario A). -/

/-- The invoice of Scenario A / `testExactMatch`. -/
def testInvoice : Invoice where
  id := "INV-001"
  amount := 1000
  date := ⟨2024, 1, 15⟩
  customerId := "CUST-001"
  customerName := "Test Company"
  referenceId := some "REF-001"

/-- The transaction of Scenario A / `testExactMatch`. -/
def testTransaction : Transaction where
  id := "TXN-001"
  amount := 1000
  date := ⟨2024, 1, 15⟩
  description := "Test Company REF-001 payment"
  source := "bank"

/-- A standalone candidate used as a concrete witness input. -/
def sampleCandidate : MatchCandidate where
  invoiceId := "INV-001"
  transactionId := "TXN-001"
  confidenceScore := 0.5
  amountScore := 0.5
  dateScore := 0.5
  referenceScore := 0.5
  breakdown := ⟨0, 0, true, true, 0.5⟩

/-! ## Claim C1 -/

/-- C1: with all three composer weights zero, the code does not raise any
InvalidConfiguration fault — it silently divides by the zero total weight,
producing a `NaN` confidence (`none` in this model) instead of an ordinary
numeric result, for every choice of the component scores and of the
remaining configuration fields. -/
theorem claim1_zero_weights_silent_nan (a d r : ℚ)
    (ex : Bool) (tol win thresh minc : ℚ) :
    calculateConfidenceScore a d r ⟨ex, tol, 0, win, 0, thresh, 0, minc⟩ = none := by
  simp [calculateConfidenceScore]

/-! ## Claim C4 -/

/-- C4: the date score is 1 (in window, difference 0) for identical days,
exactly 0.1 (out of window) beyond the window, and the floor-clamped
linear decay (in window) otherwise; in particular 2024-01-15 against
2024-03-15 with a 30-day window is out of window with score 0.1 (the
whole-day difference is 60, 2024 being a leap year). -/
theorem claim4_date_score_spec (invoiceDate transactionDate : JDate)
    (config : MatchingConfig) :
    (dateDifferenceDays invoiceDate transactionDate = 0 →
      calculateDateScore invoiceDate transactionDate config = ⟨1, true, 0⟩) ∧
    (dateDifferenceDays invoiceDate transactionDate ≠ 0 →
      ¬((dateDifferenceDays invoiceDate transactionDate : ℚ) ≤ config.dateWindowDays) →
      calculateDateScore invoiceDate transactionDate config =
        ⟨0.1, false, dateDifferenceDays invoiceDate transactionDate⟩) ∧
    (dateDifferenceDays invoiceDate transactionDate ≠ 0 →
      (dateDifferenceDays invoiceDate transactionDate : ℚ) ≤ config.dateWindowDays →
      calculateDateScore invoiceDate transactionDate config =
        ⟨max 0 (1 - (dateDifferenceDays invoiceDate transactionDate : ℚ) /
          config.dateWindowDays), true, dateDifferenceDays invoiceDate transactionDate⟩) ∧
    (calculateDateScore ⟨2024, 1, 15⟩ ⟨2024, 3, 15⟩ { config with dateWindowDays := 30 } =
      ⟨0.1, false, 60⟩) := by
  have h60 : dateDifferenceDays ⟨2024, 1, 15⟩ ⟨2024, 3, 15⟩ = 60 := by
    with_unfolding_all decide
  refine ⟨fun h0 => ?_, fun hne hwin => ?_, fun hne hwin => ?_, ?_⟩
  · simp [calculateDateScore, h0]
  · simp [calculateDateScore, hne, hwin]
  · simp [calculateDateScore, hne, hwin]
  · simp [calculateDateScore, h60]
    norm_num

/-- Witness for C4: the far-apart scenario under the default window. -/
theorem claim4_date_score_spec_witness :
    calculateDateScore ⟨2024, 1, 15⟩ ⟨2024, 3, 15⟩ DEFAULT_MATCHING_CONFIG =
      ⟨0.1, false, 60⟩ := by
  have h := (claim4_date_score_spec ⟨2024, 1, 15⟩ ⟨2024, 3, 15⟩ DEFAULT_MATCHING_CONFIG).2.1
    (by with_unfolding_all decide) (by with_unfolding_all decide)
  exact h.trans (by with_unfolding_all decide)

/-! ## Claim C2 -/

/-- The two floor clamps of the out-of-tolerance branch collapse to the
spec's single clamp around the halved decay. -/
theorem max_zero_half_eq (x : ℚ) : max 0 (max 0 x * 0.5) = max 0 (0.5 * (x : ℚ)) := by
  rcases le_total x 0 with h | h
  · rw [max_eq_left h, zero_mul, max_eq_left (le_refl 0),
      max_eq_left (by nlinarith : (0.5 : ℚ) * x ≤ 0)]
  · rw [max_eq_right h, mul_comm]

/-- C2: the amount score follows the spec formula exactly — equal amounts
give `(1, true, 0)`; a required exact match fails unequal amounts with
`(0, false, diff)`; otherwise, with `percentDiff = |diff|/invoiceAmount ×
100` and `tolerance = amountTolerance × invoiceAmount / 100`, a difference
within tolerance scores `1 − percentDiff/(amountTolerance×100)` with
match=true and a difference outside it scores `0.5 × (1 − percentDiff/50)`
with match=false, both floor-clamped at 0. -/
theorem claim2_amount_score_formula (invoiceAmount transactionAmount : ℚ)
    (config : MatchingConfig) (_hpos : 0 < invoiceAmount) :
    (invoiceAmount = transactionAmount →
      calculateAmountScore invoiceAmount transactionAmount config = ⟨1, true, 0⟩) ∧
    (invoiceAmount ≠ transactionAmount → config.exactAmountMatch = true →
      calculateAmountScore invoiceAmount transactionAmount config =
        ⟨0, false, |invoiceAmount - transactionAmount|⟩) ∧
    (invoiceAmount ≠ transactionAmount → config.exactAmountMatch = false →
      |invoiceAmount - transactionAmount| ≤ config.amountTolerance * invoiceAmount / 100 →
      calculateAmountScore invoiceAmount transactionAmount config =
        ⟨max 0 (1 - |invoiceAmount - transactionAmount| / invoiceAmount * 100 /
            (config.amountTolerance * 100)),
          true, |invoiceAmount - transactionAmount|⟩) ∧
    (invoiceAmount ≠ transactionAmount → config.exactAmountMatch = false →
      ¬(|invoiceAmount - transactionAmount| ≤ config.amountTolerance * invoiceAmount / 100) →
      calculateAmountScore invoiceAmount transactionAmount config =
        ⟨max 0 (0.5 * (1 - |invoiceAmount - transactionAmount| / invoiceAmount * 100 / 50)),
          false, |invoiceAmount - transactionAmount|⟩) := by
  refine ⟨fun heq => ?_, fun hne hex => ?_, fun hne hex htol => ?_, fun hne hex htol => ?_⟩
  · simp [calculateAmountScore, heq]
  · simp [calculateAmountScore, hne, hex]
  · simp [calculateAmountScore, hne, hex, htol]
  · simp only [calculateAmountScore, if_neg hne, hex, Bool.false_eq_true, if_false,
      if_neg htol]
    rw [max_zero_half_eq]

/-- Witness for C2: amount 1000 against 1015 under the default
configuration falls outside the (absolute) tolerance 0.2 and takes the
halved-decay branch. -/
theorem claim2_amount_score_formula_witness :
    calculateAmountScore 1000 1015 DEFAULT_MATCHING_CONFIG =
      ⟨max 0 (0.5 * (1 - |(1000 : ℚ) - 1015| / 1000 * 100 / 50)), false,
        |(1000 : ℚ) - 1015|⟩ :=
  (claim2_amount_score_formula 1000 1015 DEFAULT_MATCHING_CONFIG (by norm_num)).2.2.2
    (by norm_num) rfl (by with_unfolding_all decide)

/-! ## Claim C5 -/

/-- Counterexample to C5 as stated: with lower bound 0 and supplied upper
bound 0, a candidate with confidence 0.5 is outside the inclusive range
`[0, 0]` yet is returned — the source's truthiness guard
`maxConfidence ? … : true` ignores a zero upper bound. -/
theorem claim5_filter_zero_max_counterexample :
    filterByConfidence [sampleCandidate] 0 (some 0) = [sampleCandidate] ∧
    ¬ sampleCandidate.confidenceScore ≤ 0 := by
  constructor
  · with_unfolding_all decide
  · with_unfolding_all decide

/-- C5 amended: for a supplied nonzero upper bound the filter keeps exactly
the candidates in the inclusive range; with no upper bound, or a supplied
upper bound of 0 (which the truthiness guard treats as absent), exactly
those meeting the lower bound. -/
theorem claim5_filterByConfidence_amended (candidates : List MatchCandidate)
    (minConfidence : ℚ) :
    (∀ m : ℚ, m ≠ 0 → ∀ c, c ∈ filterByConfidence candidates minConfidence (some m) ↔
      c ∈ candidates ∧ minConfidence ≤ c.confidenceScore ∧ c.confidenceScore ≤ m) ∧
    (∀ c, c ∈ filterByConfidence candidates minConfidence none ↔
      c ∈ candidates ∧ minConfidence ≤ c.confidenceScore) ∧
    (∀ c, c ∈ filterByConfidence candidates minConfidence (some 0) ↔
      c ∈ candidates ∧ minConfidence ≤ c.confidenceScore) := by
  refine ⟨fun m hm c => ?_, fun c => ?_, fun c => ?_⟩
  · simp [filterByConfidence, List.mem_filter, truthy, hm, and_assoc]
  · simp [filterByConfidence, List.mem_filter]
  · simp [filterByConfidence, List.mem_filter, truthy]

/-- Witness for C5 (amended): a candidate inside the range `[0, 1]` is
kept by the filter. -/
theorem claim5_filterByConfidence_amended_witness :
    sampleCandidate ∈ filterByConfidence [sampleCandidate] 0 (some 1) :=
  ((claim5_filterByConfidence_amended [sampleCandidate] 0).1 1 (by norm_num)
    sampleCandidate).mpr
    ⟨by simp, by with_unfolding_all decide, by with_unfolding_all decide⟩

/-! ## Claim C7 -/

/-- C7: with the weights held fixed — nonnegative with positive total — the
composed confidence is monotonically non-decreasing in each component
score (stated jointly: raising any combination of the three component
scores cannot lower the confidence). -/
theorem claim7_confidence_monotone (config : MatchingConfig)
    (hA : 0 ≤ config.amountWeight) (hD : 0 ≤ config.dateWeight)
    (hR : 0 ≤ config.referenceWeight)
    (hT : 0 < config.amountWeight + config.dateWeight + config.referenceWeight)
    (a a' d d' r r' x y : ℚ) (ha : a ≤ a') (hd : d ≤ d') (hr : r ≤ r')
    (hx : calculateConfidenceScore a d r config = some x)
    (hy : calculateConfidenceScore a' d' r' config = some y) : x ≤ y := by
  simp only [calculateConfidenceScore, if_neg hT.ne', Option.some.injEq] at hx hy
  subst hx
  subst hy
  have hwa : 0 ≤ config.amountWeight /
      (config.amountWeight + config.dateWeight + config.referenceWeight) :=
    div_nonneg hA hT.le
  have hwd : 0 ≤ config.dateWeight /
      (config.amountWeight + config.dateWeight + config.referenceWeight) :=
    div_nonneg hD hT.le
  have hwr : 0 ≤ config.referenceWeight /
      (config.amountWeight + config.dateWeight + config.referenceWeight) :=
    div_nonneg hR hT.le
  have hsum :
      a * (config.amountWeight /
          (config.amountWeight + config.dateWeight + config.referenceWeight)) +
        d * (config.dateWeight /
          (config.amountWeight + config.dateWeight + config.referenceWeight)) +
        r * (config.referenceWeight /
          (config.amountWeight + config.dateWeight + config.referenceWeight)) ≤
      a' * (config.amountWeight /
          (config.amountWeight + config.dateWeight + config.referenceWeight)) +
        d' * (config.dateWeight /
          (config.amountWeight + config.dateWeight + config.referenceWeight)) +
        r' * (config.referenceWeight /
          (config.amountWeight + config.dateWeight + config.referenceWeight)) := by
    gcongr
  exact max_le_max le_rfl (min_le_min le_rfl hsum)

/-- Witness for C7: raising the amount score from 0 to 1 under the default
weights raises the confidence from 0.6 to 1. -/
theorem claim7_confidence_monotone_witness : (0.6 : ℚ) ≤ 1 :=
  claim7_confidence_monotone DEFAULT_MATCHING_CONFIG
    (by norm_num [DEFAULT_MATCHING_CONFIG]) (by norm_num [DEFAULT_MATCHING_CONFIG])
    (by norm_num [DEFAULT_MATCHING_CONFIG]) (by norm_num [DEFAULT_MATCHING_CONFIG])
    0 1 1 1 1 1 0.6 1 (by norm_num) le_rfl le_rfl
    (by with_unfolding_all decide) (by with_unfolding_all decide)

/-! ## Claims C8 and C10 -/

/-- C8: no candidate is classified both one-to-one and ambiguous — the two
filters test the same two group sizes against mutually exclusive
conditions (`= 1` on both versus `> 1` on either). -/
theorem claim8_oneToOne_ambiguous_disjoint (candidates : List MatchCandidate)
    (c : MatchCandidate) (h : c ∈ findOneToOneMatches candidates) :
    c ∉ findAmbiguousMatches candidates := by
  intro h2
  rw [findOneToOneMatches, List.mem_filter] at h
  rw [findAmbiguousMatches, List.mem_filter] at h2
  obtain ⟨-, hp⟩ := h
  obtain ⟨-, hq⟩ := h2
  simp only [Bool.and_eq_true, beq_iff_eq, Bool.or_eq_true, decide_eq_true_eq] at hp hq
  omega

/-- Witness for C8: the sole candidate of a singleton list is one-to-one,
hence not ambiguous. -/
theorem claim8_oneToOne_ambiguous_disjoint_witness :
    sampleCandidate ∉ findAmbiguousMatches [sampleCandidate] :=
  claim8_oneToOne_ambiguous_disjoint [sampleCandidate] sampleCandidate
    (by with_unfolding_all decide)

/-- C10: the two classifications cover every candidate — each candidate
belongs to its own invoice group and transaction group, so both group
sizes are at least 1 and either both equal 1 or one exceeds 1. -/
theorem claim10_classification_covers (candidates : List MatchCandidate)
    (c : MatchCandidate) (h : c ∈ candidates) :
    c ∈ findOneToOneMatches candidates ∨ c ∈ findAmbiguousMatches candidates := by
  have hinv : 0 < invoiceGroupSize candidates c := by
    have hm : c ∈ candidates.filter (fun d => d.invoiceId == c.invoiceId) :=
      List.mem_filter.mpr ⟨h, by simp⟩
    exact List.length_pos.mpr (List.ne_nil_of_mem hm)
  have htxn : 0 < transactionGroupSize candidates c := by
    have hm : c ∈ candidates.filter (fun d => d.transactionId == c.transactionId) :=
      List.mem_filter.mpr ⟨h, by simp⟩
    exact List.length_pos.mpr (List.ne_nil_of_mem hm)
  by_cases h1 : invoiceGroupSize candidates c = 1
  · by_cases h2 : transactionGroupSize candidates c = 1
    · left
      rw [findOneToOneMatches, List.mem_filter]
      exact ⟨h, by simp [h1, h2]⟩
    · right
      rw [findAmbiguousMatches, List.mem_filter]
      refine ⟨h, ?_⟩
      simp only [Bool.or_eq_true, decide_eq_true_eq]
      omega
  · right
    rw [findAmbiguousMatches, List.mem_filter]
    refine ⟨h, ?_⟩
    simp only [Bool.or_eq_true, decide_eq_true_eq]
    omega

/-- Witness for C10: the sole candidate of a singleton list is classified
(as one-to-one). -/
theorem claim10_classification_covers_witness :
    sampleCandidate ∈ findOneToOneMatches [sampleCandidate] ∨
      sampleCandidate ∈ findAmbiguousMatches [sampleCandidate] :=
  claim10_classification_covers [sampleCandidate] sampleCandidate (by simp)

/-! ## Claim C3 -/

/-- Membership in the per-invoice candidate list is exactly a transaction
of the input whose pair passed the threshold. -/
theorem mem_findCandidatesForInvoice (invoice : Invoice)
    (transactions : List Transaction) (config : MatchingConfig)
    (c : MatchCandidate) :
    c ∈ findCandidatesForInvoice invoice transactions config ↔
      ∃ transaction ∈ transactions, candidateFor invoice transaction config = some c := by
  rw [findCandidatesForInvoice, (List.perm_insertionSort confGE _).mem_iff,
    List.mem_filterMap]

/-- C3: `findMatches` returns exactly the pairs of the full cross product
whose composed confidence is an actual number at least
`minConfidenceScore` — sound (every returned candidate is such a pair) and
complete (every such pair is returned) — and the returned list is sorted
in descending order of confidence. -/
theorem claim3_findMatches_exact_and_sorted (invoices : List Invoice)
    (transactions : List Transaction) (config : MatchingConfig) :
    (∀ c : MatchCandidate, c ∈ findMatches invoices transactions config ↔
      ∃ invoice ∈ invoices, ∃ transaction ∈ transactions, ∃ conf : ℚ,
        composedConfidence invoice transaction config = some conf ∧
        config.minConfidenceScore ≤ conf ∧
        c = buildCandidate invoice transaction config conf) ∧
    List.Sorted confGE (findMatches invoices transactions config) := by
  constructor
  · intro c
    rw [findMatches, (List.perm_insertionSort confGE _).mem_iff, List.mem_flatMap]
    constructor
    · rintro ⟨invoice, hinv, hc⟩
      rw [mem_findCandidatesForInvoice] at hc
      obtain ⟨transaction, htxn, heq⟩ := hc
      refine ⟨invoice, hinv, transaction, htxn, ?_⟩
      unfold candidateFor at heq
      split at heq
      · exact absurd heq (by simp)
      next conf hcc =>
        split at heq
        next hmin => exact ⟨conf, hcc, hmin, (Option.some.inj heq).symm⟩
        next hmin => exact absurd heq (by simp)
    · rintro ⟨invoice, hinv, transaction, htxn, conf, hcc, hmin, rfl⟩
      refine ⟨invoice, hinv, ?_⟩
      rw [mem_findCandidatesForInvoice]
      exact ⟨transaction, htxn, by simp [candidateFor, hcc, hmin]⟩
  · exact List.sorted_insertionSort confGE _

/-- Witness for C3: the sorted-output half at the Scenario A input. -/
theorem claim3_findMatches_exact_and_sorted_witness :
    List.Sorted confGE (findMatches [testInvoice] [testTransaction]
      DEFAULT_MATCHING_CONFIG) :=
  (claim3_findMatches_exact_and_sorted [testInvoice] [testTransaction]
    DEFAULT_MATCHING_CONFIG).2

/-! ## Claim C6 -/

/-- The Levenshtein similarity never exceeds 1 (the distance is a natural
number and the length denominator is nonnegative in the dividing branch). -/
theorem levenshteinSimilarity_le_one (str1 str2 : List Char) :
    levenshteinSimilarity str1 str2 ≤ 1 := by
  unfold levenshteinSimilarity
  dsimp only
  split
  · exact le_refl 1
  · have h : (0 : ℚ) ≤ (levenshteinDistance str1 str2 : ℚ) /
        ((max str1.length str2.length : ℕ) : ℚ) :=
      div_nonneg (Nat.cast_nonneg _) (Nat.cast_nonneg _)
    push_cast at h ⊢
    linarith

/-- The fuzzy score lies in `[0, 1]`: each branch returns 1, 0, or a value
clamped into `[0.5, 1]`. -/
theorem fuzzyScore_mem_unit (pattern target : List Char) :
    0 ≤ fuzzyScore pattern target ∧ fuzzyScore pattern target ≤ 1 := by
  unfold fuzzyScore
  dsimp only
  split
  · norm_num
  split
  · norm_num
  split
  · constructor
    · exact le_trans (by norm_num) (le_max_left (0.5 : ℚ) _)
    · exact max_le (by norm_num) (min_le_left _ _)
  · norm_num

/-- The inner best-match fold never exceeds 1 when started at or below 1:
the exact-match break yields 1 and every compared similarity is at most 1. -/
theorem bestMatchAux_le_one (ref1 : List Char) (l : List (List Char)) (best : ℚ)
    (hb : best ≤ 1) : bestMatchAux ref1 l best ≤ 1 := by
  induction l generalizing best with
  | nil => simpa [bestMatchAux] using hb
  | cons r2 rest ih =>
    unfold bestMatchAux
    split
    · exact le_refl 1
    · exact ih _ (max_le (max_le hb (levenshteinSimilarity_le_one _ _))
        (fuzzyScore_mem_unit _ _).2)

/-- The inner best-match fold stays nonnegative when started at or above 0
(the accumulator only grows under `max`, and the break yields 1). -/
theorem bestMatchAux_nonneg (ref1 : List Char) (l : List (List Char)) (best : ℚ)
    (hb : 0 ≤ best) : 0 ≤ bestMatchAux ref1 l best := by
  induction l generalizing best with
  | nil => simpa [bestMatchAux] using hb
  | cons r2 rest ih =>
    unfold bestMatchAux
    split
    · norm_num
    · exact ih _ (le_trans hb (le_trans (le_max_left _ _) (le_max_left _ _)))

/-- The token-set comparison lies in `[0, 1]`: it is an average of per-token
best matches, each of which lies in `[0, 1]`. -/
theorem compareReferenceSets_mem_unit (refs1 refs2 : List (List Char)) :
    0 ≤ compareReferenceSets refs1 refs2 ∧ compareReferenceSets refs1 refs2 ≤ 1 := by
  unfold compareReferenceSets
  dsimp only
  split
  · norm_num
  split
  · norm_num
  split
  next hpos =>
    have hcast : (0 : ℚ) < (refs1.length : ℚ) := by exact_mod_cast hpos
    constructor
    · apply div_nonneg _ hcast.le
      apply List.sum_nonneg
      intro x hx
      obtain ⟨r1, -, rfl⟩ := List.mem_map.mp hx
      exact bestMatchAux_nonneg r1 refs2 0 le_rfl
    · rw [div_le_one hcast]
      have hsum : ((refs1.map (fun r1 => bestMatchAux r1 refs2 0)).sum : ℚ) ≤
          (refs1.map (fun r1 => bestMatchAux r1 refs2 0)).length • (1 : ℚ) := by
        apply List.sum_le_card_nsmul
        intro x hx
        obtain ⟨r1, -, rfl⟩ := List.mem_map.mp hx
        exact bestMatchAux_le_one r1 refs2 0 (by norm_num)
      rw [List.length_map, nsmul_eq_mul, mul_one] at hsum
      exact hsum
  next hpos =>
    norm_num

/-- The amount score lies in `[0, 1]` for a positive invoice amount.  In
the within-tolerance branch the tolerance must be positive (it bounds a
positive difference from above), which forces a positive
`amountTolerance`, making the subtracted term nonnegative. -/
theorem calculateAmountScore_mem_unit (invoiceAmount transactionAmount : ℚ)
    (config : MatchingConfig) (hpos : 0 < invoiceAmount) :
    0 ≤ (calculateAmountScore invoiceAmount transactionAmount config).score ∧
    (calculateAmountScore invoiceAmount transactionAmount config).score ≤ 1 := by
  unfold calculateAmountScore
  dsimp only
  split
  · norm_num
  split
  · norm_num
  next hne hex =>
  split
  next htol =>
    refine ⟨le_max_left _ _, max_le (by norm_num) ?_⟩
    have hdiffpos : 0 < |invoiceAmount - transactionAmount| :=
      abs_pos.mpr (sub_ne_zero.mpr hne)
    have htolpos : 0 < config.amountTolerance := by nlinarith
    have hquot : 0 ≤ |invoiceAmount - transactionAmount| / invoiceAmount * 100 /
        (config.amountTolerance * 100) :=
      div_nonneg (by positivity) (by positivity)
    linarith
  next htol =>
    refine ⟨le_max_left _ _, max_le (by norm_num) ?_⟩
    have hpd : 0 ≤ |invoiceAmount - transactionAmount| / invoiceAmount * 100 / 50 := by
      positivity
    have h1 : max 0 (1 - |invoiceAmount - transactionAmount| / invoiceAmount * 100 / 50) ≤ 1 :=
      max_le (by norm_num) (by linarith)
    have h2 : max 0 (1 - |invoiceAmount - transactionAmount| / invoiceAmount * 100 / 50) * 0.5 ≤
        1 * 0.5 := mul_le_mul_of_nonneg_right h1 (by norm_num)
    linarith

/-- The date score lies in `[0, 1]` for every pair of dates and every
configuration: each branch is 1, the 0.1 floor, or a clamped linear decay
whose subtracted term is nonnegative because the in-window branch forces a
positive window. -/
theorem calculateDateScore_mem_unit (invoiceDate transactionDate : JDate)
    (config : MatchingConfig) :
    0 ≤ (calculateDateScore invoiceDate transactionDate config).score ∧
    (calculateDateScore invoiceDate transactionDate config).score ≤ 1 := by
  unfold calculateDateScore
  dsimp only
  split
  · norm_num
  split
  · norm_num
  next hne hwin =>
    refine ⟨le_max_left _ _, max_le (by norm_num) ?_⟩
    have hwin' : ((dateDifferenceDays invoiceDate transactionDate : ℕ) : ℚ) ≤
        config.dateWindowDays := by
      simpa [decide_eq_false_iff_not] using hwin
    have hone : (1 : ℚ) ≤ ((dateDifferenceDays invoiceDate transactionDate : ℕ) : ℚ) := by
      exact_mod_cast Nat.one_le_iff_ne_zero.mpr hne
    have hwpos : 0 < config.dateWindowDays := lt_of_lt_of_le (by linarith) hwin'
    have hq : 0 ≤ ((dateDifferenceDays invoiceDate transactionDate : ℕ) : ℚ) /
        config.dateWindowDays := div_nonneg (by linarith) hwpos.le
    linarith

/-- The reference score lies in `[0, 1]`: the empty-token default 0.3 is
in range, and otherwise the maximum of the token-set comparison (itself in
`[0, 1]`) and 0.8 times a similarity at most 1 stays in range. -/
theorem calculateReferenceScore_mem_unit (invoice : Invoice)
    (transaction : Transaction) (config : MatchingConfig) :
    0 ≤ calculateReferenceScore invoice transaction config ∧
    calculateReferenceScore invoice transaction config ≤ 1 := by
  unfold calculateReferenceScore
  dsimp only
  split
  · norm_num
  · constructor
    · exact le_trans (compareReferenceSets_mem_unit _ _).1 (le_max_left _ _)
    · apply max_le (compareReferenceSets_mem_unit _ _).2
      have hsim := levenshteinSimilarity_le_one invoice.customerName.data
        transaction.description.data
      nlinarith

/-- C6: for every configuration and every invoice/transaction pair with a
positive invoice amount, each of the three scoring functions returns a
value in the closed interval `[0, 1]`. -/
theorem claim6_scores_in_unit_interval (invoice : Invoice)
    (transaction : Transaction) (config : MatchingConfig)
    (hpos : 0 < invoice.amount) :
    (0 ≤ (calculateAmountScore invoice.amount transaction.amount config).score ∧
      (calculateAmountScore invoice.amount transaction.amount config).score ≤ 1) ∧
    (0 ≤ (calculateDateScore invoice.date transaction.date config).score ∧
      (calculateDateScore invoice.date transaction.date config).score ≤ 1) ∧
    (0 ≤ calculateReferenceScore invoice transaction config ∧
      calculateReferenceScore invoice transaction config ≤ 1) :=
  ⟨calculateAmountScore_mem_unit invoice.amount transaction.amount config hpos,
    calculateDateScore_mem_unit invoice.date transaction.date config,
    calculateReferenceScore_mem_unit invoice transaction config⟩

/-- Witness for C6: the Scenario A pair under the default configuration. -/
theorem claim6_scores_in_unit_interval_witness :
    0 < testInvoice.amount ∧
    ((0 ≤ (calculateAmountScore testInvoice.amount testTransaction.amount
        DEFAULT_MATCHING_CONFIG).score ∧
      (calculateAmountScore testInvoice.amount testTransaction.amount
        DEFAULT_MATCHING_CONFIG).score ≤ 1) ∧
    (0 ≤ (calculateDateScore testInvoice.date testTransaction.date
        DEFAULT_MATCHING_CONFIG).score ∧
      (calculateDateScore testInvoice.date testTransaction.date
        DEFAULT_MATCHING_CONFIG).score ≤ 1) ∧
    (0 ≤ calculateReferenceScore testInvoice testTransaction
        DEFAULT_MATCHING_CONFIG ∧
      calculateReferenceScore testInvoice testTransaction
        DEFAULT_MATCHING_CONFIG ≤ 1)) :=
  ⟨by norm_num [testInvoice], claim6_scores_in_unit_interval testInvoice
    testTransaction DEFAULT_MATCHING_CONFIG (by norm_num [testInvoice])⟩

/-! ## Claim C9 -/

/-- The candidate produced by Scenario A: the amounts and dates agree
exactly and every invoice token occurs verbatim in the transaction
description, so all three scores — and the composed confidence — are 1. -/
def scenarioCandidate : MatchCandidate where
  invoiceId := "INV-001"
  transactionId := "TXN-001"
  confidenceScore := 1
  amountScore := 1
  dateScore := 1
  referenceScore := 1
  breakdown := ⟨0, 0, true, true, 1⟩

set_option maxRecDepth 100000 in
/-- C9: matching the Scenario A invoice against the Scenario A transaction
under the default configuration returns exactly one candidate, whose
confidence exceeds 0.8 and whose breakdown reports an amount match and an
in-window date. -/
theorem claim9_scenarioA :
    ∃ c : MatchCandidate,
      findMatches [testInvoice] [testTransaction] DEFAULT_MATCHING_CONFIG = [c] ∧
      (0.8 : ℚ) < c.confidenceScore ∧ c.breakdown.amountMatch = true ∧
      c.breakdown.dateInWindow = true :=
  ⟨scenarioCandidate, by with_unfolding_all decide, by with_unfolding_all decide,
    rfl, rfl⟩
